import Mathlib

/-!
Verification development for the screen-time leaderboard application
(`src/screen-time-leaderboard/src/app/page.tsx`).

The development has two parts.

Part A embeds the Aggregator described in the specification (weekly
screen-time accumulation, ranked views, administrator reset).  The
repository snapshot under `src/` only contains the early version of the
page that appends raw documents to a `screenTime` collection; the
weekly-aggregation / reset version the spec describes is not present, so
those operations are modelled from the spec's own operation descriptions
(each such definition is marked `Modelled from the spec:`).

Part B embeds the client code that is present in `src/`: the
`submitScreenTime`, `handleRegister`, `handleLogin`,
`handleUpdateSettings` handlers and the leaderboard `onSnapshot`
processing loop, with JavaScript truthiness (`||`, `if (x)`) made
explicit.
-/

namespace ScreenTime

/-- Opaque user identifier (Firebase `uid`). -/
abbrev UserId := String

/-- Deterministic label for a 7-day bucket. -/
abbrev WeekId := Nat

/-- A per-(user, week) screen-time record, as described by the spec's data
model: accumulated minutes plus denormalized user name/email. -/
structure WeeklyRecord where
  userId : UserId
  weekId : WeekId
  minutes : Nat
  name : String
  email : String
deriving Repr, DecidableEq

/-- A user profile: identity, display name, email, lifetime total minutes,
administrator flag. -/
structure UserProfile where
  userId : UserId
  name : String
  email : String
  lifetimeTotal : Nat
  isAdmin : Bool
deriving Repr, DecidableEq

/-- The document store the Aggregator operates on: the collection of
weekly records and the collection of user profiles. -/
structure Store where
  weeklyRecords : List WeeklyRecord
  profiles : List UserProfile
deriving Repr, DecidableEq

/-- The store's upsert-by-key primitive (spec §2: "point write-by-key
(upsert)"): if some element matches the key predicate, every matching
element is overwritten with the new document; otherwise the new document
is appended. -/
def upsertBy (key : α → Bool) (new : α) (l : List α) : List α :=
  if l.any key then l.map (fun q => if key q then new else q) else l ++ [new]

/-- Point read-by-key on a list of documents. -/
def findBy (key : α → Bool) (l : List α) : Option α :=
  l.find? key

/-- Boolean key predicate selecting the weekly record of user `u` for week
`w`. -/
def recKey (u : UserId) (w : WeekId) (r : WeeklyRecord) : Bool :=
  r.userId == u && r.weekId == w

/-- Boolean key predicate selecting the profile of user `u`. -/
def profKey (u : UserId) (p : UserProfile) : Bool :=
  p.userId == u

/-- Read the weekly record of user `u` for week `w`, if any. -/
def findRecord (s : Store) (u : UserId) (w : WeekId) : Option WeeklyRecord :=
  findBy (recKey u w) s.weeklyRecords

/-- Read-or-default the minutes of user `u`'s record for week `w`
(default 0). -/
def weeklyMinutes (s : Store) (u : UserId) (w : WeekId) : Nat :=
  match findRecord s u w with
  | some r => r.minutes
  | none => 0

/-- Read-or-default user `u`'s lifetime total (default 0). -/
def lifetimeOf (s : Store) (u : UserId) : Nat :=
  match findBy (profKey u) s.profiles with
  | some p => p.lifetimeTotal
  | none => 0

/-- User `u`'s profile with its lifetime total set to `n` (a fresh
profile carries empty name/email and no administrator flag). -/
def profileWithTotal (s : Store) (u : UserId) (n : Nat) : UserProfile :=
  match findBy (profKey u) s.profiles with
  | some p => { p with lifetimeTotal := n }
  | none => { userId := u, name := "", email := "", lifetimeTotal := n,
              isAdmin := false }

/-- Write user `u`'s lifetime total, upserting the profile document. -/
def setLifetime (s : Store) (u : UserId) (n : Nat) : Store :=
  { s with profiles := upsertBy (profKey u) (profileWithTotal s u n) s.profiles }

/-- Modelled from the spec: `submit(user, minutes)` of the Aggregator
(spec §4.1), whose weekly-aggregation implementation is absent from
`src/`.  Resolve the current week id; read-or-default the user's
WeeklyRecord for that week (default 0); write
`WeeklyRecord.minutes = prior + minutes`; read-or-default the user's
lifetime total; write `UserProfile.lifetimeTotal = prior + minutes`. -/
def submit (currentWeek : WeekId) (u : UserId) (uname uemail : String)
    (minutes : Nat) (s : Store) : Store :=
  let prior := weeklyMinutes s u currentWeek
  let s1 := { s with
    weeklyRecords := upsertBy (recKey u currentWeek)
      { userId := u, weekId := currentWeek, minutes := prior + minutes,
        name := uname, email := uemail } s.weeklyRecords }
  let priorTotal := lifetimeOf s1 u
  setLifetime s1 u (priorTotal + minutes)

/-- Whether the caller's administrator flag is set (a caller without a
profile is not an administrator). -/
def isAdminUser (s : Store) (u : UserId) : Bool :=
  match findBy (profKey u) s.profiles with
  | some p => p.isAdmin
  | none => false

/-- Modelled from the spec: `resetAll()` of the Aggregator (spec §4.1),
absent from `src/`.  Permitted only if the caller's administrator flag is
set: deletes every WeeklyRecord and sets every UserProfile's
lifetimeTotal to 0, as one batch; a non-administrator call is a silent
no-op. -/
def resetAll (caller : UserId) (s : Store) : Store :=
  if isAdminUser s caller then
    { weeklyRecords := [],
      profiles := s.profiles.map (fun p => { p with lifetimeTotal := 0 }) }
  else s

/-- Modelled from the spec: `updateName(user, newName)` of the Aggregator
(spec §4.1) at the store level: renames the user's profile; does not
touch the name stored on historical WeeklyRecords. -/
def updateName (u : UserId) (newName : String) (s : Store) : Store :=
  let ps := s.profiles.map
    (fun p => if profKey u p then { p with name := newName } else p)
  { s with profiles := ps }

/-- Modelled from the spec: profile creation at registration (spec §3:
"Created at registration").  Upserts a profile document with lifetime
total 0 and no administrator flag. -/
def register (u : UserId) (uname uemail : String) (s : Store) : Store :=
  let newProf : UserProfile :=
    { userId := u, name := uname, email := uemail, lifetimeTotal := 0,
      isAdmin := false }
  { s with profiles := upsertBy (profKey u) newProf s.profiles }

/-- The operations that mutate the store. -/
inductive Op where
  | submit (currentWeek : WeekId) (u : UserId) (uname uemail : String)
      (minutes : Nat)
  | resetAll (caller : UserId)
  | updateName (u : UserId) (newName : String)
  | register (u : UserId) (uname uemail : String)
deriving Repr, DecidableEq

/-- Apply one operation to the store. -/
def applyOp : Op → Store → Store
  | .submit w u un ue m, s => submit w u un ue m s
  | .resetAll c, s => resetAll c s
  | .updateName u n, s => updateName u n s
  | .register u un ue, s => register u un ue s

/-- Run a sequence of operations. -/
def run (ops : List Op) (s : Store) : Store :=
  ops.foldl (fun s op => applyOp op s) s

/-- The (user id, week id) key of a weekly record. -/
def recordKey (r : WeeklyRecord) : UserId × WeekId :=
  (r.userId, r.weekId)

/-- The store invariant: at most one WeeklyRecord per (user, week). -/
def UniqueWeekly (s : Store) : Prop :=
  (s.weeklyRecords.map recordKey).Nodup

/-- Sort direction of a ranked view (spec §2: "ascending or descending,
configurable"). -/
inductive SortDir where
  | asc
  | desc
deriving Repr, DecidableEq

/-- Mode of the ranked view (spec §4.1: mode ∈ \x7bweekly, lifetime\x7d). -/
inductive ViewMode where
  | weekly
  | lifetime
deriving Repr, DecidableEq

/-- Ascending comparison of weekly records by accumulated minutes. -/
def byMinutesLe (a b : WeeklyRecord) : Prop :=
  a.minutes ≤ b.minutes

/-- Descending comparison of weekly records by accumulated minutes. -/
def byMinutesGe (a b : WeeklyRecord) : Prop :=
  b.minutes ≤ a.minutes

/-- Ascending comparison of profiles by lifetime total. -/
def byTotalLe (a b : UserProfile) : Prop :=
  a.lifetimeTotal ≤ b.lifetimeTotal

/-- Descending comparison of profiles by lifetime total. -/
def byTotalGe (a b : UserProfile) : Prop :=
  b.lifetimeTotal ≤ a.lifetimeTotal

instance : DecidableRel byMinutesLe := fun a b => Nat.decLe a.minutes b.minutes

instance : DecidableRel byMinutesGe := fun a b => Nat.decLe b.minutes a.minutes

instance : DecidableRel byTotalLe :=
  fun a b => Nat.decLe a.lifetimeTotal b.lifetimeTotal

instance : DecidableRel byTotalGe :=
  fun a b => Nat.decLe b.lifetimeTotal a.lifetimeTotal

instance : IsTotal WeeklyRecord byMinutesLe :=
  ⟨fun a b => Nat.le_total a.minutes b.minutes⟩

instance : IsTotal WeeklyRecord byMinutesGe :=
  ⟨fun a b => Nat.le_total b.minutes a.minutes⟩

instance : IsTotal UserProfile byTotalLe :=
  ⟨fun a b => Nat.le_total a.lifetimeTotal b.lifetimeTotal⟩

instance : IsTotal UserProfile byTotalGe :=
  ⟨fun a b => Nat.le_total b.lifetimeTotal a.lifetimeTotal⟩

instance : IsTrans WeeklyRecord byMinutesLe :=
  ⟨fun _ _ _ h h2 => Nat.le_trans h h2⟩

instance : IsTrans WeeklyRecord byMinutesGe :=
  ⟨fun _ _ _ h h2 => Nat.le_trans h2 h⟩

instance : IsTrans UserProfile byTotalLe :=
  ⟨fun _ _ _ h h2 => Nat.le_trans h h2⟩

instance : IsTrans UserProfile byTotalGe :=
  ⟨fun _ _ _ h h2 => Nat.le_trans h2 h⟩

/-- Modelled from the spec: the weekly case of `rankedView(mode)` (spec
§4.1), absent from `src/`: all WeeklyRecords whose week id equals the
current week, ordered by minutes in the configured direction. -/
def rankedWeekly (dir : SortDir) (current : WeekId) (s : Store) :
    List WeeklyRecord :=
  let thisWeek := s.weeklyRecords.filter (fun r => r.weekId == current)
  match dir with
  | .asc => thisWeek.insertionSort byMinutesLe
  | .desc => thisWeek.insertionSort byMinutesGe

/-- Modelled from the spec: the lifetime case of `rankedView(mode)` (spec
§4.1), absent from `src/`: all UserProfiles ordered by lifetimeTotal in
the configured direction. -/
def rankedLifetime (dir : SortDir) (s : Store) : List UserProfile :=
  match dir with
  | .asc => s.profiles.insertionSort byTotalLe
  | .desc => s.profiles.insertionSort byTotalGe

/-- The sequence of total values served by the ranked view in a given
mode and direction. -/
def viewTotals (mode : ViewMode) (dir : SortDir) (current : WeekId)
    (s : Store) : List Nat :=
  match mode with
  | .weekly => (rankedWeekly dir current s).map (fun r => r.minutes)
  | .lifetime => (rankedLifetime dir s).map (fun p => p.lifetimeTotal)

/-- Sortedness of a value sequence in the configured direction. -/
def dirSorted (dir : SortDir) (l : List Nat) : Prop :=
  match dir with
  | .asc => l.Sorted (fun a b => a ≤ b)
  | .desc => l.Sorted (fun a b => b ≤ a)

/-!
Part B: the client code present in `src/` (`page.tsx`), embedded with
JavaScript truthiness made explicit and each awaited backend call
parameterized by its outcome (`Except.error` models a thrown promise
rejection).
-/

/-- JavaScript `a || b` where `a` is an optional string: `undefined` and
the empty string are falsy, so they fall through to `b`. -/
def jsOr (a : Option String) (b : String) : String :=
  match a with
  | some s => if s = "" then b else s
  | none => b

/-- JavaScript truthiness of an optional string (`if (x)`). -/
def truthy : Option String → Bool
  | some s => !(s == "")
  | none => false

/-- The authenticated user as held in the component's `user` state: the
Firebase auth fields the handlers read, plus the merged `name`
property. -/
structure SessionUser where
  uid : String
  name : String
  displayName : Option String
  email : String
deriving Repr, DecidableEq

/-- A document of the `screenTime` collection, as written by
`submitScreenTime`. -/
structure ScreenTimeDoc where
  userId : Option String
  name : Option String
  email : String
  screenTime : Int
deriving Repr, DecidableEq

/-- A document of the `users` collection. -/
structure UsersDoc where
  name : String
  email : String
deriving Repr, DecidableEq

/-- The slice of backend state the handlers touch: the `users`
collection (keyed by uid), the `screenTime` collection, and the current
auth profile's display name. -/
structure World where
  users : List (String × UsersDoc)
  screenTime : List ScreenTimeDoc
  authDisplayName : Option String
deriving Repr, DecidableEq

/-- The component's local state (`useState` hooks of `Home`). -/
structure HomeState where
  user : Option SessionUser
  screenTime : Int
  email : String
  password : String
  name : String
  errorMsg : String
  log : List String
deriving Repr, DecidableEq

/-- A Firestore operation issued by a handler. -/
inductive StoreCall where
  | getUserDoc (uid : String)
  | addScreenTimeDoc (d : ScreenTimeDoc)
  | setUserDoc (uid : String) (d : UsersDoc)
  | updateUserDocName (uid : String) (newName : String)
deriving Repr, DecidableEq

/-- An auth-service operation issued by a handler. -/
inductive AuthCall where
  | createUser (email pw : String)
  | signIn (email pw : String)
  | updateProfileName (displayName : String)
deriving Repr, DecidableEq

/-- `submitScreenTime` (src lines 249-271).  `getRes` is the outcome of
`getDoc(doc(db, "users", user.uid))` with `.data()` collapsed to the
optional document, `addRes` the outcome of `addDoc` on the `screenTime`
collection (not reached when the read throws).  Returns the new
component state and the store calls issued, in order.  A caught error is
logged via `console.error` and sets no user-facing state. -/
def submitScreenTime (st : HomeState)
    (getRes : Except String (Option UsersDoc))
    (addRes : Except String Unit) : HomeState × List StoreCall :=
  match st.user with
  | none => (st, [])
  | some u =>
    match getRes with
    | .error e =>
      ({ st with log := st.log ++ ["Error submitting screen time: " ++ e] },
       [.getUserDoc u.uid])
    | .ok userData =>
      let nm := jsOr (userData.map (fun d => d.name))
        (jsOr (some u.name) (jsOr u.displayName "Anonymous"))
      let d : ScreenTimeDoc :=
        { userId := some u.uid, name := some nm, email := u.email,
          screenTime := st.screenTime }
      match addRes with
      | .error e =>
        ({ st with log := st.log ++ ["Submitting screen time",
            "Error submitting screen time: " ++ e] },
         [.getUserDoc u.uid, .addScreenTimeDoc d])
      | .ok _ =>
        ({ st with
            screenTime := 0
            log := st.log ++ ["Submitting screen time"] },
         [.getUserDoc u.uid, .addScreenTimeDoc d])

/-- `handleRegister` (src lines 195-230).  `createRes` is the outcome of
`createUserWithEmailAndPassword` (carrying the new uid), `updRes` of
`updateProfile`, `setRes` of `setDoc` on `users`; later calls are not
reached once one throws.  The single `catch` surfaces the failure's
message via `setError`.  Returns the new component state, the auth calls
issued and the store calls issued, in order. -/
def handleRegister (st : HomeState) (createRes : Except String String)
    (updRes : Except String Unit) (setRes : Except String Unit) :
    HomeState × List AuthCall × List StoreCall :=
  let st0 := { st with errorMsg := "" }
  match createRes with
  | .error e =>
    ({ st0 with errorMsg := e }, [.createUser st.email st.password], [])
  | .ok uid =>
    match updRes with
    | .error e =>
      ({ st0 with errorMsg := e },
       [.createUser st.email st.password, .updateProfileName st.name], [])
    | .ok _ =>
      match setRes with
      | .error e =>
        ({ st0 with errorMsg := e },
         [.createUser st.email st.password, .updateProfileName st.name],
         [.setUserDoc uid { name := st.name, email := st.email }])
      | .ok _ =>
        ({ st0 with
            user := some { uid := uid, name := st.name,
                           displayName := some st.name, email := st.email },
            email := "", password := "", name := "" },
         [.createUser st.email st.password, .updateProfileName st.name],
         [.setUserDoc uid { name := st.name, email := st.email }])

/-- `handleLogin` (src lines 232-243).  `signRes` is the outcome of
`signInWithEmailAndPassword`; the `catch` surfaces the failure's message
via `setError`. -/
def handleLogin (st : HomeState) (signRes : Except String Unit) :
    HomeState × List AuthCall :=
  let st0 := { st with errorMsg := "" }
  match signRes with
  | .error e =>
    ({ st0 with errorMsg := e }, [.signIn st.email st.password])
  | .ok _ =>
    ({ st0 with email := "", password := "" },
     [.signIn st.email st.password])

/-- The effect of `updateDoc(doc(db, "users", uid), \x7b name \x7d)` on the
`users` collection: the name field of `uid`'s document is replaced,
other documents are untouched. -/
def updateUserName (users : List (String × UsersDoc)) (uid newName : String) :
    List (String × UsersDoc) :=
  users.map (fun kv =>
    if kv.1 == uid then (kv.1, { kv.2 with name := newName }) else kv)

/-- `handleUpdateSettings` (src lines 274-297).  `updRes` is the outcome
of `updateDoc` on the user's `users` document, `profRes` of
`updateProfile` on the auth profile (not reached when `updateDoc`
throws).  On failure the `catch` logs and surfaces the message.  Returns
the new component state and backend world. -/
def handleUpdateSettings (st : HomeState) (w : World) (newName : String)
    (updRes : Except String Unit) (profRes : Except String Unit) :
    HomeState × World :=
  match st.user with
  | none => (st, w)
  | some u =>
    match updRes with
    | .error e =>
      ({ st with
          errorMsg := e
          log := st.log ++ ["Error updating settings: " ++ e] }, w)
    | .ok _ =>
      let w1 := { w with users := updateUserName w.users u.uid newName }
      match profRes with
      | .error e =>
        ({ st with
            errorMsg := e
            log := st.log ++ ["Error updating settings: " ++ e] }, w1)
      | .ok _ =>
        ({ st with user := some { u with name := newName } },
         { w1 with authDisplayName := some newName })

/-- A document of a `screenTime` query snapshot, as read by the
`onSnapshot` handler. -/
structure SnapDoc where
  id : String
  userId : Option String
  name : Option String
  email : String
  screenTime : Int
deriving Repr, DecidableEq

/-- A leaderboard entry as pushed by the `onSnapshot` handler. -/
structure LeaderboardEntry where
  id : String
  name : String
  email : String
  screenTime : Int
deriving Repr, DecidableEq

/-- Processing of one snapshot document by the `onSnapshot` handler (src
lines 134-172).  `fetch uid` is the outcome of
`getDoc(doc(db, "users", uid))`: `.error` a thrown read, `.ok (some nm)`
a successful read whose data carries name `nm`, `.ok none` a successful
read with no data or no name field.  The `if (data.userId)` truthiness
test and the `||` fallback chains are explicit. -/
def processDoc (fetch : String → Except String (Option String))
    (d : SnapDoc) : LeaderboardEntry :=
  if truthy d.userId then
    match fetch (d.userId.getD "") with
    | .ok nm? =>
      { id := d.id, name := jsOr nm? (jsOr d.name "Anonymous"),
        email := d.email, screenTime := d.screenTime }
    | .error _ =>
      { id := d.id, name := jsOr d.name "Anonymous",
        email := d.email, screenTime := d.screenTime }
  else
    { id := d.id, name := jsOr d.name "Anonymous",
      email := d.email, screenTime := d.screenTime }

/-- The `onSnapshot` handler body (src lines 131-174): one leaderboard
entry is pushed per snapshot document, in order. -/
def processSnapshot (fetch : String → Except String (Option String))
    (docs : List SnapDoc) : List LeaderboardEntry :=
  docs.map (processDoc fetch)

/-!
Helper lemmas.
-/

theorem find?_map_replace (key : α → Bool) (new : α) (l : List α)
    (hnew : key new = true) (hany : l.any key = true) :
    (l.map (fun q => if key q then new else q)).find? key = some new := by
  induction l with
  | nil => simp at hany
  | cons a l ih =>
    by_cases ha : key a = true
    · simp [ha, List.find?, hnew]
    · simp only [Bool.not_eq_true] at ha
      simp only [List.any_cons, ha, Bool.false_or] at hany
      simp [List.find?, ha, ih hany]

theorem find?_append_none (l₁ l₂ : List α) (p : α → Bool)
    (h : l₁.find? p = none) :
    (l₁ ++ l₂).find? p = l₂.find? p := by
  induction l₁ with
  | nil => simp
  | cons a l ih =>
    by_cases ha : p a = true
    · simp [List.find?, ha] at h
    · simp only [Bool.not_eq_true] at ha
      simp only [List.cons_append]
      simp only [List.find?, ha] at h ⊢
      exact ih h

/-- Reading back the key just upserted yields the new document. -/
theorem findBy_upsertBy_self (key : α → Bool) (new : α) (l : List α)
    (hnew : key new = true) :
    findBy key (upsertBy key new l) = some new := by
  unfold findBy upsertBy
  by_cases hany : l.any key = true
  · simp only [hany, if_true]
    exact find?_map_replace key new l hnew hany
  · rw [if_neg hany]
    have hnone : l.find? key = none := by
      rw [List.find?_eq_none]
      intro x hx
      intro hkx
      exact hany (List.any_eq_true.mpr ⟨x, hx, hkx⟩)
    rw [find?_append_none l [new] key hnone]
    simp [List.find?, hnew]

theorem map_upsertBy_of_any (key : α → Bool) (new : α) (l : List α)
    (f : α → κ) (hkey : ∀ q, key q = true → f q = f new)
    (hany : l.any key = true) :
    (upsertBy key new l).map f = l.map f := by
  unfold upsertBy
  rw [if_pos hany, List.map_map]
  apply List.map_congr_left
  intro a _
  by_cases ha : key a = true
  · simp only [Function.comp, ha, if_pos]
    exact (hkey a ha).symm
  · simp [Function.comp, ha]

theorem map_upsertBy_of_not_any (key : α → Bool) (new : α) (l : List α)
    (f : α → κ) (hany : l.any key = false) :
    (upsertBy key new l).map f = l.map f ++ [f new] := by
  unfold upsertBy
  rw [if_neg (by simp [hany]), List.map_append]
  rfl

theorem countP_upsertBy (key : α → Bool) (new : α) (l : List α)
    (hnew : key new = true) :
    (upsertBy key new l).countP key
      = if l.any key then l.countP key else l.countP key + 1 := by
  unfold upsertBy
  by_cases hany : l.any key = true
  · rw [if_pos hany, if_pos hany]
    clear hany
    induction l with
    | nil => rfl
    | cons a l ih =>
      by_cases ha : key a = true
      · rw [List.map_cons, if_pos ha, List.countP_cons_of_pos _ _ hnew,
          List.countP_cons_of_pos _ _ ha, ih]
      · rw [List.map_cons, if_neg ha, List.countP_cons_of_neg _ _ ha,
          List.countP_cons_of_neg _ _ ha, ih]
  · rw [if_neg (by simp at hany ⊢; exact hany), if_neg hany,
      List.countP_append]
    simp [hnew]

theorem weeklyRecords_setLifetime (s : Store) (u : UserId) (n : Nat) :
    (setLifetime s u n).weeklyRecords = s.weeklyRecords := rfl

theorem profKey_profileWithTotal (s : Store) (u : UserId) (n : Nat) :
    profKey u (profileWithTotal s u n) = true := by
  unfold profileWithTotal
  cases hf : findBy (profKey u) s.profiles with
  | some p =>
    have hp : profKey u p = true := List.find?_some hf
    simp only [profKey] at hp ⊢
    exact hp
  | none => simp [profKey]

theorem lifetimeOf_setLifetime_self (s : Store) (u : UserId) (n : Nat) :
    lifetimeOf (setLifetime s u n) u = n := by
  unfold lifetimeOf setLifetime
  rw [findBy_upsertBy_self _ _ _ (profKey_profileWithTotal s u n)]
  unfold profileWithTotal
  cases hf : findBy (profKey u) s.profiles <;> simp

theorem submit_weeklyRecords (w : WeekId) (u : UserId) (un ue : String)
    (m : Nat) (s : Store) :
    (submit w u un ue m s).weeklyRecords
      = upsertBy (recKey u w)
          { userId := u, weekId := w, minutes := weeklyMinutes s u w + m,
            name := un, email := ue } s.weeklyRecords := rfl

theorem recKey_self (u : UserId) (w : WeekId) (m : Nat) (un ue : String) :
    recKey u w { userId := u, weekId := w, minutes := m,
                 name := un, email := ue } = true := by
  simp [recKey]

theorem findRecord_submit_self (w : WeekId) (u : UserId) (un ue : String)
    (m : Nat) (s : Store) :
    findRecord (submit w u un ue m s) u w
      = some { userId := u, weekId := w, minutes := weeklyMinutes s u w + m,
               name := un, email := ue } := by
  unfold findRecord
  rw [submit_weeklyRecords]
  exact findBy_upsertBy_self _ _ _ (recKey_self u w _ un ue)

theorem lifetimeOf_submit_self (w : WeekId) (u : UserId) (un ue : String)
    (m : Nat) (s : Store) :
    lifetimeOf (submit w u un ue m s) u = lifetimeOf s u + m := by
  simp only [submit, lifetimeOf_setLifetime_self]
  rfl

theorem weeklyMinutes_submit_self (w : WeekId) (u : UserId) (un ue : String)
    (m : Nat) (s : Store) :
    weeklyMinutes (submit w u un ue m s) u w = weeklyMinutes s u w + m := by
  simp [weeklyMinutes, findRecord_submit_self]

theorem any_recKey_submit (w : WeekId) (u : UserId) (un ue : String)
    (m : Nat) (s : Store) :
    (submit w u un ue m s).weeklyRecords.any (recKey u w) = true := by
  have h := findRecord_submit_self w u un ue m s
  exact List.any_eq_true.mpr
    ⟨_, List.mem_of_find?_eq_some h, List.find?_some h⟩

theorem countP_submit (w : WeekId) (u : UserId) (un ue : String) (m : Nat)
    (s : Store) :
    (submit w u un ue m s).weeklyRecords.countP (recKey u w)
      = if s.weeklyRecords.any (recKey u w) then
          s.weeklyRecords.countP (recKey u w)
        else s.weeklyRecords.countP (recKey u w) + 1 := by
  rw [submit_weeklyRecords]
  exact countP_upsertBy _ _ _ (recKey_self u w _ un ue)

theorem uniqueWeekly_applyOp (op : Op) (s : Store) (h : UniqueWeekly s) :
    UniqueWeekly (applyOp op s) := by
  cases op with
  | submit w u un ue m =>
    show UniqueWeekly (submit w u un ue m s)
    unfold UniqueWeekly
    rw [submit_weeklyRecords]
    by_cases hany : s.weeklyRecords.any (recKey u w) = true
    · rw [map_upsertBy_of_any _ _ _ _ ?_ hany]
      · exact h
      · intro q hq
        simp only [recKey, Bool.and_eq_true, beq_iff_eq] at hq
        simp [recordKey, hq.1, hq.2]
    · have hany2 : s.weeklyRecords.any (recKey u w) = false :=
        Bool.eq_false_iff.mpr hany
      rw [map_upsertBy_of_not_any _ _ _ _ hany2]
      rw [List.nodup_append]
      refine ⟨h, List.nodup_singleton _, ?_⟩
      intro a ha hb
      simp only [List.mem_singleton] at hb
      obtain ⟨q, hqm, hqk⟩ := List.mem_map.mp ha
      rw [hb] at hqk
      simp only [recordKey, Prod.mk.injEq] at hqk
      have hq : recKey u w q = true := by
        simp [recKey, hqk.1, hqk.2]
      exact hany (List.any_eq_true.mpr ⟨q, hqm, hq⟩)
  | resetAll c =>
    show UniqueWeekly (resetAll c s)
    unfold resetAll
    by_cases hadm : isAdminUser s c = true
    · rw [if_pos hadm]
      unfold UniqueWeekly
      simp
    · rw [if_neg hadm]
      exact h
  | updateName u n => exact h
  | register u un ue => exact h

/-!
Claim theorems, Part A (spec-modelled Aggregator).
-/

/-- Claim C1: for every user `u` and non-negative minute values `m1` and
`m2`, if `u` submits `m1` and then `m2` within the same week with no
other interleaved operations (starting with no record for that week),
then after both submissions `u`'s single WeeklyRecord for that week
holds exactly `m1 + m2` minutes and `u`'s lifetime total has increased
by exactly `m1 + m2`. -/
theorem submit_twice_same_week (s : Store) (w : WeekId) (u : UserId)
    (un1 ue1 un2 ue2 : String) (m1 m2 : Nat)
    (h : findRecord s u w = none) :
    weeklyMinutes (submit w u un2 ue2 m2 (submit w u un1 ue1 m1 s)) u w
        = m1 + m2
    ∧ (submit w u un2 ue2 m2
        (submit w u un1 ue1 m1 s)).weeklyRecords.countP (recKey u w) = 1
    ∧ lifetimeOf (submit w u un2 ue2 m2 (submit w u un1 ue1 m1 s)) u
        = lifetimeOf s u + (m1 + m2) := by
  have h0 : weeklyMinutes s u w = 0 := by
    simp [weeklyMinutes, h]
  have hc0 : s.weeklyRecords.countP (recKey u w) = 0 :=
    List.countP_eq_zero.mpr (fun a ha hka => (List.find?_eq_none.mp h a ha) hka)
  have hany0 : s.weeklyRecords.any (recKey u w) = false := by
    rw [Bool.eq_false_iff]
    intro hx
    obtain ⟨x, hxm, hxk⟩ := List.any_eq_true.mp hx
    exact (List.find?_eq_none.mp h x hxm) hxk
  refine ⟨?_, ?_, ?_⟩
  · rw [weeklyMinutes_submit_self, weeklyMinutes_submit_self, h0,
      Nat.zero_add]
  · have h1 := countP_submit w u un1 ue1 m1 s
    rw [hany0] at h1
    simp only [if_false, Bool.false_eq_true] at h1
    have h2 := countP_submit w u un2 ue2 m2 (submit w u un1 ue1 m1 s)
    rw [any_recKey_submit] at h2
    simp only [if_true] at h2
    rw [h2, h1, hc0]
  · rw [lifetimeOf_submit_self, lifetimeOf_submit_self, Nat.add_assoc]

theorem submit_twice_same_week_witness :
    findRecord { weeklyRecords := [], profiles := [] } "alice" 7 = none
    ∧ weeklyMinutes
        (submit 7 "alice" "A" "a@x" 45
          (submit 7 "alice" "A" "a@x" 30
            { weeklyRecords := [], profiles := [] })) "alice" 7 = 30 + 45 :=
  ⟨rfl,
   (submit_twice_same_week { weeklyRecords := [], profiles := [] } 7 "alice"
     "A" "a@x" "A" "a@x" 30 45 rfl).1⟩

/-- Claim C2: every reachable state of the store satisfies the
invariant that for each pair (user id, week id) there is at most one
WeeklyRecord document: running any sequence of operations from a state
satisfying the invariant lands in a state satisfying it. -/
theorem uniqueWeekly_run (ops : List Op) (s : Store) (h : UniqueWeekly s) :
    UniqueWeekly (run ops s) := by
  induction ops generalizing s with
  | nil => exact h
  | cons op rest ih => exact ih (applyOp op s) (uniqueWeekly_applyOp op s h)

theorem uniqueWeekly_run_witness :
    UniqueWeekly
      (run [Op.register "a" "A" "a@x", Op.submit 3 "a" "A" "a@x" 10,
            Op.submit 3 "a" "A" "a@x" 5, Op.resetAll "a"]
        { weeklyRecords := [], profiles := [] }) :=
  uniqueWeekly_run _ _ (by simp [UniqueWeekly])

/-- Claim C3: the ranked view in weekly mode contains only
WeeklyRecords whose week id equals the current week; no record from any
prior week appears in the sequence it produces. -/
theorem rankedWeekly_current_week (dir : SortDir) (current : WeekId)
    (s : Store) (r : WeeklyRecord) (hr : r ∈ rankedWeekly dir current s) :
    r.weekId = current := by
  have hmem : r ∈ s.weeklyRecords.filter (fun q => q.weekId == current) := by
    cases dir with
    | asc =>
      simp only [rankedWeekly] at hr
      exact (List.perm_insertionSort byMinutesLe _).mem_iff.mp hr
    | desc =>
      simp only [rankedWeekly] at hr
      exact (List.perm_insertionSort byMinutesGe _).mem_iff.mp hr
  have hk := (List.mem_filter.mp hmem).2
  simpa using hk

theorem rankedWeekly_current_week_witness :
    ({ userId := "a", weekId := 4, minutes := 10, name := "A",
       email := "a@x" } : WeeklyRecord).weekId = 4 :=
  rankedWeekly_current_week SortDir.desc 4
    { weeklyRecords :=
        [{ userId := "a", weekId := 4, minutes := 10, name := "A",
           email := "a@x" },
         { userId := "b", weekId := 3, minutes := 99, name := "B",
           email := "b@x" }],
      profiles := [] }
    { userId := "a", weekId := 4, minutes := 10, name := "A",
      email := "a@x" }
    (by decide)

/-- Claim C4: `resetAll` invoked by a caller whose administrator flag
is not set leaves the store unchanged; invoked by a caller whose
administrator flag is set it leaves zero WeeklyRecords and every
UserProfile's lifetime total equal to 0. -/
theorem resetAll_gated (caller : UserId) (s : Store) :
    (isAdminUser s caller = false → resetAll caller s = s)
    ∧ (isAdminUser s caller = true →
        (resetAll caller s).weeklyRecords = []
        ∧ ∀ p ∈ (resetAll caller s).profiles, p.lifetimeTotal = 0) := by
  constructor
  · intro hna
    unfold resetAll
    rw [if_neg (by simp [hna])]
  · intro ha
    unfold resetAll
    rw [if_pos ha]
    refine ⟨rfl, ?_⟩
    intro p hp
    obtain ⟨q, _, rfl⟩ := List.mem_map.mp hp
    rfl

theorem resetAll_gated_witness :
    (resetAll "bob"
        { weeklyRecords :=
            [{ userId := "a", weekId := 1, minutes := 5, name := "A",
               email := "a@x" }],
          profiles :=
            [{ userId := "root", name := "R", email := "r@x",
               lifetimeTotal := 5, isAdmin := true }] }
      = { weeklyRecords :=
            [{ userId := "a", weekId := 1, minutes := 5, name := "A",
               email := "a@x" }],
          profiles :=
            [{ userId := "root", name := "R", email := "r@x",
               lifetimeTotal := 5, isAdmin := true }] })
    ∧ (resetAll "root"
        { weeklyRecords :=
            [{ userId := "a", weekId := 1, minutes := 5, name := "A",
               email := "a@x" }],
          profiles :=
            [{ userId := "root", name := "R", email := "r@x",
               lifetimeTotal := 5, isAdmin := true }] }).weeklyRecords
        = [] :=
  ⟨(resetAll_gated "bob" _).1 (by decide),
   ((resetAll_gated "root" _).2 (by decide)).1⟩

/-- Claim C7: the ranked view serves the totals in a configurable
order, ascending or descending by the total value, and for every store
state the sequence it produces is sorted in the configured direction. -/
theorem viewTotals_dirSorted (mode : ViewMode) (dir : SortDir)
    (current : WeekId) (s : Store) :
    dirSorted dir (viewTotals mode dir current s) := by
  cases mode with
  | weekly =>
    cases dir with
    | asc =>
      exact List.pairwise_map.mpr (List.sorted_insertionSort byMinutesLe _)
    | desc =>
      exact List.pairwise_map.mpr (List.sorted_insertionSort byMinutesGe _)
  | lifetime =>
    cases dir with
    | asc =>
      exact List.pairwise_map.mpr (List.sorted_insertionSort byTotalLe _)
    | desc =>
      exact List.pairwise_map.mpr (List.sorted_insertionSort byTotalGe _)

/-!
Helper lemmas, Part B.
-/

theorem jsOr_ne_empty (a : Option String) (b : String) (hb : b ≠ "") :
    jsOr a b ≠ "" := by
  unfold jsOr
  cases a with
  | none => exact hb
  | some s =>
    dsimp only
    split
    · exact hb
    · assumption

theorem processDoc_name_ne_empty
    (fetch : String → Except String (Option String)) (d : SnapDoc) :
    (processDoc fetch d).name ≠ "" := by
  unfold processDoc
  split
  · split
    · exact jsOr_ne_empty _ _ (jsOr_ne_empty _ _ (by decide))
    · exact jsOr_ne_empty _ _ (by decide)
  · exact jsOr_ne_empty _ _ (by decide)

theorem updateUserName_find? (users : List (String × UsersDoc))
    (uid newName : String) (d : UsersDoc)
    (h : users.find? (fun kv => kv.1 == uid) = some (uid, d)) :
    (updateUserName users uid newName).find? (fun kv => kv.1 == uid)
      = some (uid, { d with name := newName }) := by
  induction users with
  | nil => simp [List.find?] at h
  | cons kv rest ih =>
    by_cases hk : (kv.1 == uid) = true
    · simp only [List.find?, hk] at h
      injection h with h2
      subst h2
      unfold updateUserName
      simp [List.find?, hk]
    · have hkf : (kv.1 == uid) = false := Bool.eq_false_iff.mpr hk
      simp only [List.find?, hkf] at h
      unfold updateUserName at ih ⊢
      simp only [List.map_cons, hkf, Bool.false_eq_true, if_false,
        List.find?]
      exact ih h

/-!
Claim theorems, Part B (code present in src/).
-/

/-- Claim C5: every failure raised during an authentication flow
(register or login) is caught and surfaced as a user-visible error
message; every failure raised during a screen-time submission is only
logged and produces no user-visible message; in neither case is the
operation retried (each backend call is issued at most once). -/
theorem failures_surfacing (st : HomeState) :
    (∀ e updRes setRes,
        (handleRegister st (Except.error e) updRes setRes).1.errorMsg = e)
    ∧ (∀ uid e setRes,
        (handleRegister st (Except.ok uid)
          (Except.error e) setRes).1.errorMsg = e)
    ∧ (∀ uid e,
        (handleRegister st (Except.ok uid) (Except.ok ())
          (Except.error e)).1.errorMsg = e)
    ∧ (∀ e, (handleLogin st (Except.error e)).1.errorMsg = e)
    ∧ (∀ u e addRes, st.user = some u →
        (submitScreenTime st (Except.error e) addRes).1.errorMsg
            = st.errorMsg
        ∧ (submitScreenTime st (Except.error e) addRes).1.log
            = st.log ++ ["Error submitting screen time: " ++ e])
    ∧ (∀ u d e, st.user = some u →
        (submitScreenTime st (Except.ok d)
          (Except.error e)).1.errorMsg = st.errorMsg
        ∧ (submitScreenTime st (Except.ok d) (Except.error e)).1.log
            = st.log ++ ["Submitting screen time",
                "Error submitting screen time: " ++ e])
    ∧ (∀ createRes updRes setRes,
        (handleRegister st createRes updRes setRes).2.1.Nodup
        ∧ (handleRegister st createRes updRes setRes).2.2.Nodup)
    ∧ (∀ signRes, (handleLogin st signRes).2.Nodup)
    ∧ (∀ getRes addRes, (submitScreenTime st getRes addRes).2.Nodup) := by
  refine ⟨?_, ?_, ?_, ?_, ?_, ?_, ?_, ?_, ?_⟩
  · intro e updRes setRes
    rfl
  · intro uid e setRes
    rfl
  · intro uid e
    rfl
  · intro e
    rfl
  · intro u e addRes hu
    unfold submitScreenTime
    rw [hu]
    exact ⟨rfl, rfl⟩
  · intro u d e hu
    unfold submitScreenTime
    rw [hu]
    exact ⟨rfl, rfl⟩
  · intro createRes updRes setRes
    cases createRes <;> cases updRes <;> cases setRes <;>
      simp [handleRegister]
  · intro signRes
    cases signRes <;> simp [handleLogin]
  · intro getRes addRes
    cases hsu : st.user with
    | none => simp [submitScreenTime, hsu]
    | some u => cases getRes <;> cases addRes <;>
        simp [submitScreenTime, hsu]

theorem failures_surfacing_witness :
    (handleRegister
        ({ user := none, screenTime := 0, email := "e@x", password := "pw",
           name := "N", errorMsg := "", log := [] } : HomeState)
        (Except.error "boom") (Except.ok ()) (Except.ok ())).1.errorMsg
      = "boom"
    ∧ (submitScreenTime
        ({ user := some { uid := "u1", name := "A",
                          displayName := some "A", email := "a@x" },
           screenTime := 5, email := "", password := "", name := "",
           errorMsg := "", log := [] } : HomeState)
        (Except.error "net") (Except.ok ())).1.errorMsg = "" :=
  ⟨(failures_surfacing
      { user := none, screenTime := 0, email := "e@x", password := "pw",
        name := "N", errorMsg := "", log := [] }).1
    "boom" (Except.ok ()) (Except.ok ()),
   ((failures_surfacing
      { user := some { uid := "u1", name := "A",
                        displayName := some "A", email := "a@x" },
        screenTime := 5, email := "", password := "", name := "",
        errorMsg := "", log := [] }).2.2.2.2.1
    { uid := "u1", name := "A", displayName := some "A", email := "a@x" }
    "net" (Except.ok ()) rfl).1⟩

/-- Claim C6: `handleUpdateSettings` changes the user's profile name and
current display identity (auth display name and local user state) to the
new name while leaving the denormalized name field stored on every
previously created screen-time record unchanged. -/
theorem handleUpdateSettings_spec (st : HomeState) (w : World)
    (u : SessionUser) (newName : String) (hu : st.user = some u) :
    (handleUpdateSettings st w newName (Except.ok ())
        (Except.ok ())).2.authDisplayName = some newName
    ∧ (handleUpdateSettings st w newName (Except.ok ())
        (Except.ok ())).1.user = some { u with name := newName }
    ∧ (∀ d, w.users.find? (fun kv => kv.1 == u.uid) = some (u.uid, d) →
        (handleUpdateSettings st w newName (Except.ok ())
            (Except.ok ())).2.users.find? (fun kv => kv.1 == u.uid)
          = some (u.uid, { d with name := newName }))
    ∧ (∀ updRes profRes,
        (handleUpdateSettings st w newName updRes profRes).2.screenTime
          = w.screenTime) := by
  refine ⟨?_, ?_, ?_, ?_⟩
  · unfold handleUpdateSettings
    rw [hu]
  · unfold handleUpdateSettings
    rw [hu]
  · intro d hd
    unfold handleUpdateSettings
    rw [hu]
    exact updateUserName_find? w.users u.uid newName d hd
  · intro updRes profRes
    unfold handleUpdateSettings
    rw [hu]
    cases updRes with
    | error e => rfl
    | ok v =>
      cases profRes with
      | error e2 => rfl
      | ok v2 => rfl

theorem handleUpdateSettings_spec_witness :
    (handleUpdateSettings
        ({ user := some { uid := "u1", name := "Old",
                          displayName := some "Old", email := "b@x" },
           screenTime := 0, email := "", password := "", name := "",
           errorMsg := "", log := [] } : HomeState)
        ({ users := [("u1", { name := "Old", email := "b@x" })],
           screenTime :=
             [{ userId := some "u1", name := some "Old", email := "b@x",
                screenTime := 30 }],
           authDisplayName := some "Old" } : World)
        "New" (Except.ok ()) (Except.ok ())).2.users.find?
          (fun kv => kv.1 == "u1")
      = some ("u1", { name := "New", email := "b@x" })
    ∧ (handleUpdateSettings
        ({ user := some { uid := "u1", name := "Old",
                          displayName := some "Old", email := "b@x" },
           screenTime := 0, email := "", password := "", name := "",
           errorMsg := "", log := [] } : HomeState)
        ({ users := [("u1", { name := "Old", email := "b@x" })],
           screenTime :=
             [{ userId := some "u1", name := some "Old", email := "b@x",
                screenTime := 30 }],
           authDisplayName := some "Old" } : World)
        "New" (Except.ok ()) (Except.ok ())).2.screenTime
      = [{ userId := some "u1", name := some "Old", email := "b@x",
           screenTime := 30 }] :=
  ⟨(handleUpdateSettings_spec
      { user := some { uid := "u1", name := "Old",
                        displayName := some "Old", email := "b@x" },
        screenTime := 0, email := "", password := "", name := "",
        errorMsg := "", log := [] }
      { users := [("u1", { name := "Old", email := "b@x" })],
        screenTime :=
          [{ userId := some "u1", name := some "Old", email := "b@x",
             screenTime := 30 }],
        authDisplayName := some "Old" }
      { uid := "u1", name := "Old", displayName := some "Old",
        email := "b@x" }
      "New" rfl).2.2.1 { name := "Old", email := "b@x" } rfl,
   (handleUpdateSettings_spec
      { user := some { uid := "u1", name := "Old",
                        displayName := some "Old", email := "b@x" },
        screenTime := 0, email := "", password := "", name := "",
        errorMsg := "", log := [] }
      { users := [("u1", { name := "Old", email := "b@x" })],
        screenTime :=
          [{ userId := some "u1", name := some "Old", email := "b@x",
             screenTime := 30 }],
        authDisplayName := some "Old" }
      { uid := "u1", name := "Old", displayName := some "Old",
        email := "b@x" }
      "New" rfl).2.2.2 (Except.ok ()) (Except.ok ())⟩

/-- Claim C8: for every leaderboard snapshot and every entry in it, the
displayed name is never empty: it is the current name from the user's
profile document when the entry carries a (truthy) userId and the
profile read succeeds with a (truthy) name, otherwise the denormalized
name stored on the entry, otherwise the literal string "Anonymous"; a
failed profile read never drops the entry from the list. -/
theorem processSnapshot_names
    (fetch : String → Except String (Option String)) (docs : List SnapDoc) :
    (processSnapshot fetch docs).length = docs.length
    ∧ (∀ e ∈ processSnapshot fetch docs, e.name ≠ "")
    ∧ (∀ d uid nm, d.userId = some uid → uid ≠ "" →
        fetch uid = Except.ok (some nm) → nm ≠ "" →
        (processDoc fetch d).name = nm)
    ∧ (∀ d uid err, d.userId = some uid → uid ≠ "" →
        fetch uid = Except.error err →
        (processDoc fetch d).name = jsOr d.name "Anonymous")
    ∧ (∀ d uid, d.userId = some uid → uid ≠ "" →
        fetch uid = Except.ok none →
        (processDoc fetch d).name = jsOr d.name "Anonymous")
    ∧ (∀ d uid nm, d.userId = some uid → uid ≠ "" →
        fetch uid = Except.ok (some nm) → nm = "" →
        (processDoc fetch d).name = jsOr d.name "Anonymous")
    ∧ (∀ d, truthy d.userId = false →
        (processDoc fetch d).name = jsOr d.name "Anonymous")
    ∧ (∀ dn, jsOr (some dn) "Anonymous"
        = if dn = "" then "Anonymous" else dn)
    ∧ jsOr none "Anonymous" = "Anonymous" := by
  refine ⟨?_, ?_, ?_, ?_, ?_, ?_, ?_, ?_, ?_⟩
  · simp [processSnapshot]
  · intro e he
    obtain ⟨d, _, rfl⟩ := List.mem_map.mp he
    exact processDoc_name_ne_empty fetch d
  · intro d uid nm hd huid hf hnm
    simp [processDoc, hd, truthy, huid, hf, jsOr, hnm]
  · intro d uid err hd huid hf
    simp [processDoc, hd, truthy, huid, hf]
  · intro d uid hd huid hf
    simp [processDoc, hd, truthy, huid, hf, jsOr]
  · intro d uid nm hd huid hf hnm
    simp [processDoc, hd, truthy, huid, hf, jsOr, hnm]
  · intro d hd
    simp [processDoc, hd]
  · intro dn
    rfl
  · rfl

theorem processSnapshot_names_witness :
    (processSnapshot (fun _ => Except.ok (some "Alice"))
        [{ id := "d1", userId := some "u1", name := some "Bob",
           email := "b@x", screenTime := 5 }]).length = 1
    ∧ (processDoc (fun _ => Except.ok (some "Alice"))
        { id := "d1", userId := some "u1", name := some "Bob",
          email := "b@x", screenTime := 5 }).name = "Alice" :=
  ⟨(processSnapshot_names (fun _ => Except.ok (some "Alice"))
      [{ id := "d1", userId := some "u1", name := some "Bob",
         email := "b@x", screenTime := 5 }]).1,
   (processSnapshot_names (fun _ => Except.ok (some "Alice"))
      [{ id := "d1", userId := some "u1", name := some "Bob",
         email := "b@x", screenTime := 5 }]).2.2.1
    { id := "d1", userId := some "u1", name := some "Bob",
      email := "b@x", screenTime := 5 }
    "u1" "Alice" rfl (by decide) rfl (by decide)⟩

/-- Claim C9: when no user is authenticated (`user` is null),
`submitScreenTime` performs no store read or write and leaves all local
component state unchanged, returning immediately. -/
theorem submitScreenTime_noop_when_logged_out (st : HomeState)
    (getRes : Except String (Option UsersDoc)) (addRes : Except String Unit)
    (h : st.user = none) :
    submitScreenTime st getRes addRes = (st, []) := by
  unfold submitScreenTime
  rw [h]

theorem submitScreenTime_noop_witness :
    submitScreenTime
        ({ user := none, screenTime := 5, email := "e", password := "p",
           name := "n", errorMsg := "", log := [] } : HomeState)
        (Except.ok none) (Except.ok ())
      = ({ user := none, screenTime := 5, email := "e", password := "p",
           name := "n", errorMsg := "", log := [] }, []) :=
  submitScreenTime_noop_when_logged_out _ _ _ rfl

/-- Claim C10: `submitScreenTime` resets the locally entered screen-time
value to 0 if and only if the store write succeeds; when the read or the
write fails, the entered value is left unchanged. -/
theorem submitScreenTime_reset_iff (st : HomeState) (u : SessionUser)
    (getRes : Except String (Option UsersDoc)) (addRes : Except String Unit)
    (hu : st.user = some u) (hnz : st.screenTime ≠ 0) :
    ((submitScreenTime st getRes addRes).1.screenTime = 0
      ↔ (∃ d, getRes = Except.ok d) ∧ addRes = Except.ok ())
    ∧ (∀ e, getRes = Except.error e →
        (submitScreenTime st getRes addRes).1.screenTime = st.screenTime)
    ∧ (∀ e, addRes = Except.error e →
        (submitScreenTime st getRes addRes).1.screenTime
          = st.screenTime) := by
  unfold submitScreenTime
  rw [hu]
  cases getRes with
  | error e => simp [hnz]
  | ok d =>
    cases addRes with
    | error e => simp [hnz]
    | ok v =>
      cases v
      simp

theorem submitScreenTime_reset_witness :
    (submitScreenTime
        ({ user := some { uid := "u1", name := "A",
                          displayName := some "A", email := "a@x" },
           screenTime := 5, email := "", password := "", name := "",
           errorMsg := "", log := [] } : HomeState)
        (Except.ok none) (Except.ok ())).1.screenTime = 0 :=
  (submitScreenTime_reset_iff
    { user := some { uid := "u1", name := "A",
                      displayName := some "A", email := "a@x" },
      screenTime := 5, email := "", password := "", name := "",
      errorMsg := "", log := [] }
    { uid := "u1", name := "A", displayName := some "A", email := "a@x" }
    (Except.ok none) (Except.ok ()) rfl (by decide)).1.mpr
    ⟨⟨none, rfl⟩, rfl⟩

end ScreenTime
